import Mathlib

/-!
Verification of the Novi intelligence-report collection pipeline.

This file shallowly embeds the parts of the Python sources that the
checked properties are about:

* `src/data_collectors/news_collector.py` (RSS parsing, date fallback,
  24-hour filter, duplicate removal),
* `src/data_collectors/jobs_collector.py` (date/package filter,
  categorization and relevance scoring),
* `src/data_collectors/stock_collector.py` (fallback stock lists and the
  momentum/volume/volatility scoring),
* `src/utils/email_sender.py` and `src/report_generator.py` (delivery
  control flow).

Python strings are modelled as `List Char` (`Str`), machine floats and
timestamps as `ℚ`, Python ints as `ℤ`/`ℕ`.  External library calls
(HTTP fetch + feedparser, BeautifulSoup HTML stripping, the date-parsing
library chain, yfinance lookups, the SMTP server) are passed in as
function parameters: the embedded code is exactly the repository's own
logic around those calls.  Fallible Python code is modelled with
`Option`/`Except`; a `try/except` block becomes a `match` on the
`Except` value.
-/

/-- Python `str` modelled as a list of characters. -/
abbrev Str := List Char

/-- Shorthand turning a Lean string literal into the `Str` model. -/
def str (s : String) : Str := s.data

/-- Python `s.lower()` (ASCII inputs). -/
def lowerStr (s : Str) : Str := s.map Char.toLower

/-- Python `needle in hay` substring membership. -/
def containsSub (hay needle : Str) : Bool := decide (needle <:+: hay)

/-- Whitespace test used by Python `str.split()` / `str.strip()`. -/
def isWs (c : Char) : Bool := c.isWhitespace

/-- Python `s.strip()`: drop whitespace at both ends. -/
def stripWs (s : Str) : Str := ((s.dropWhile isWs).reverse.dropWhile isWs).reverse

/-- Worker for `splitWs`; `cur` holds the current word reversed. -/
def splitWsAux : Str → Str → List Str
  | [], cur => if cur.isEmpty then [] else [cur.reverse]
  | c :: rest, cur =>
    if isWs c then
      if cur.isEmpty then splitWsAux rest [] else cur.reverse :: splitWsAux rest []
    else splitWsAux rest (c :: cur)

/-- Python `s.split()`: split on whitespace runs, no empty words. -/
def splitWs (s : Str) : List Str := splitWsAux s []

/-- Python `' '.join(ws)`. -/
def joinSpace : List Str → Str
  | [] => []
  | [w] => w
  | w :: ws => w ++ ' ' :: joinSpace ws

/-- Value of a digit character. -/
def digitVal (c : Char) : ℕ := c.toNat - 48

/-- Worker for `extractNums`; `cur` is the digit run currently being read. -/
def extractNumsAux : Str → Option ℕ → List ℕ
  | [], none => []
  | [], some n => [n]
  | c :: rest, acc =>
    if c.isDigit then extractNumsAux rest (some ((acc.getD 0) * 10 + digitVal c))
    else
      match acc with
      | none => extractNumsAux rest none
      | some n => n :: extractNumsAux rest none

/-- Python `re.findall(r'\d+', s)` followed by `int(...)` on each match. -/
def extractNums (s : Str) : List ℕ := extractNumsAux s none

/-!
## News collector (`news_collector.py`)

`feedparser` entries are attribute bags; an absent attribute is `none`.
Accessing `entry.title` directly (line 169 of the source) raises
`AttributeError` when the entry has no title; every other access goes
through `getattr` with a default.  `feedparser.parse` itself is the
external fetch+parse call, modelled as `Str → Option FeedResult`
(`none` = the call raised; a malformed feed yields `some` result with an
empty `entries` list, which is how feedparser reports bad XML).
-/

/-- One feed entry as surfaced by feedparser. -/
structure Entry where
  title : Option Str
  description : Option Str
  summary : Option Str
  link : Option Str
  published : Option Str
  updated : Option Str
deriving DecidableEq

/-- Result of `feedparser.parse`: feed-level title plus entries. -/
structure FeedResult where
  feedTitle : Option Str
  entries : List Entry
deriving DecidableEq

/-- Normalized news item (`news_item` dict built at lines 168-176). -/
structure Item where
  title : Str
  description : Str
  url : Str
  source : Str
  published : Str
  published_timestamp : ℚ
  category : Str
deriving DecidableEq

/-- Excluded category keywords (`NewsCollector.__init__`). -/
def excludedCategories : List Str :=
  [str "entertainment", str "sports", str "celebrity", str "bollywood",
   str "hollywood", str "cricket", str "football", str "tennis",
   str "movies", str "music", str "fashion", str "lifestyle",
   str "gossip", str "celebrity news", str "film", str "actor",
   str "actress"]

/-- `_categorize_news(title, description)`. -/
def categorizeNews (title description : Str) : Str :=
  let content := lowerStr (title ++ ' ' :: description)
  if excludedCategories.any (fun w => containsSub content w) then str "Excluded"
  else if [str "stock", str "market", str "share", str "nse", str "bse",
           str "sensex", str "nifty", str "trading"].any
            (fun w => containsSub content w) then str "Markets"
  else if [str "tech", str "technology", str "software", str "ai",
           str "digital", str "startup"].any
            (fun w => containsSub content w) then str "Technology"
  else if [str "economy", str "gdp", str "inflation", str "fiscal",
           str "budget", str "finance"].any
            (fun w => containsSub content w) then str "Economy"
  else if [str "politics", str "election", str "government", str "minister",
           str "policy"].any (fun w => containsSub content w) then str "Politics"
  else if [str "health", str "medical", str "hospital", str "covid",
           str "healthcare"].any (fun w => containsSub content w) then str "Health"
  else str "General"

/-- `_determine_source_name(feed_url, feed)`. -/
def determineSourceName (feedTitle : Option Str) (feedUrl : Str) : Str :=
  match feedTitle with
  | some t => t
  | none =>
    let u := lowerStr feedUrl
    if containsSub u (str "bbc") then str "BBC News"
    else if containsSub u (str "cnn") then str "CNN"
    else if containsSub u (str "reuters") then str "Reuters"
    else if containsSub u (str "ndtv") then str "NDTV"
    else if containsSub u (str "thehindu") then str "The Hindu"
    else if containsSub u (str "timesofindia") then str "Times of India"
    else if containsSub u (str "economictimes") then str "Economic Times"
    else if containsSub u (str "business-standard") then str "Business Standard"
    else if containsSub u (str "livemint") then str "Live Mint"
    else if containsSub u (str "eenadu") then str "Eenadu"
    else if containsSub u (str "andhrajyothy") then str "Andhra Jyothi"
    else str "RSS Feed"

/-- Lines 154-156: `published = getattr(entry,'published','')`, falling back
to `getattr(entry,'updated', datetime.now().isoformat())` when falsy.
`nowIso` stands for `datetime.now().isoformat()`. -/
def selectPublished (nowIso : Str) (e : Entry) : Str :=
  let p := e.published.getD []
  if p.isEmpty then e.updated.getD nowIso else p

/-- `_parse_date_to_timestamp`.  The chain of library parsers
(`feedparser._parse_date`, `fromisoformat`, `email.utils.parsedate_tz`) is
abstracted into one external `pd : Str → Option ℚ`; on total failure the
function returns the current timestamp (line 210). -/
def parseDateToTimestamp (pd : Str → Option ℚ) (now : ℚ) (s : Str) : ℚ :=
  (pd s).getD now

/-- The timestamp stored on the produced item (line 158). -/
def derivedTimestamp (pd : Str → Option ℚ) (now : ℚ) (nowIso : Str) (e : Entry) : ℚ :=
  parseDateToTimestamp pd now (selectPublished nowIso e)

/-- Body of the per-entry loop of `_parse_rss_feed` (lines 135-178).
`stripHtml` stands for the BeautifulSoup `get_text` call.  The only
plain attribute access is `entry.title`; a missing title raises
(`.error ()`), which the caller's `except` turns into an empty batch. -/
def processEntry (stripHtml : Str → Str) (pd : Str → Option ℚ) (now : ℚ)
    (nowIso : Str) (feedUrl : Str) (feedTitle : Option Str) (e : Entry) :
    Except Unit Item :=
  let description := e.description.getD (str "No description")
  let summary := e.summary.getD description
  let content := if description.length < summary.length then summary else description
  let cleanContent :=
    if content.isEmpty then str "No description available"
    else
      let c := stripHtml content
      if 200 < c.length then c.take 200 ++ str "..." else c
  let url0 := e.link.getD feedUrl
  let url := if url0.isEmpty || url0 = str "#" then feedUrl else url0
  match e.title with
  | none => .error ()
  | some t =>
    .ok { title := t
          description := cleanContent
          url := url
          source := determineSourceName feedTitle feedUrl
          published := selectPublished nowIso e
          published_timestamp := derivedTimestamp pd now nowIso e
          category := categorizeNews t cleanContent }

/-- The entry loop: items accumulate until an entry raises; a raise
discards the partial list (the caller's `except` returns `[]`). -/
def processEntries (stripHtml : Str → Str) (pd : Str → Option ℚ) (now : ℚ)
    (nowIso : Str) (feedUrl : Str) (feedTitle : Option Str) :
    List Entry → Except Unit (List Item)
  | [] => .ok []
  | e :: rest =>
    match processEntry stripHtml pd now nowIso feedUrl feedTitle e with
    | .error u => .error u
    | .ok it =>
      match processEntries stripHtml pd now nowIso feedUrl feedTitle rest with
      | .error u => .error u
      | .ok its => .ok (it :: its)

/-- What `_parse_rss_feed` does with the result of `feedparser.parse`:
empty/malformed feeds return `[]` (lines 131-133), and any exception in
the entry loop is caught by the outer `except`, also returning `[]`
(lines 182-184). -/
def processFeedResult (stripHtml : Str → Str) (pd : Str → Option ℚ) (now : ℚ)
    (nowIso : Str) (feedUrl : Str) (limit : ℕ) (res : Option FeedResult) :
    List Item :=
  match res with
  | none => []
  | some fr =>
    if fr.entries.isEmpty then []
    else
      match processEntries stripHtml pd now nowIso feedUrl fr.feedTitle
          (fr.entries.take limit) with
      | .ok items => items
      | .error _ => []

/-- `_parse_rss_feed(feed_url, limit)`: the URL is handed to
`feedparser.parse` unconditionally (line 128); no validation of any kind
happens before that call. -/
def parseRssFeed (parse : Str → Option FeedResult) (stripHtml : Str → Str)
    (pd : Str → Option ℚ) (now : ℚ) (nowIso : Str) (feedUrl : Str)
    (limit : ℕ) : List Item :=
  match parse feedUrl with
  | none => []
  | some fr =>
    if fr.entries.isEmpty then []
    else
      match processEntries stripHtml pd now nowIso feedUrl fr.feedTitle
          (fr.entries.take limit) with
      | .ok items => items
      | .error _ => []

/-- `_filter_last_24_hours`: keep items whose timestamp is at least
`now - 24h` (the comparison in the source is `>=`). -/
def filterLast24Hours (now : ℚ) (items : List Item) : List Item :=
  items.filter fun it => decide (now - 24 * 3600 ≤ it.published_timestamp)

/-- First five words of the lowercased, stripped title (line 419). -/
def first5Words (t : Str) : List Str := (splitWs (stripWs (lowerStr t))).take 5

/-- The dedup key: `' '.join(sorted(title.lower().strip().split()[:5]))`. -/
def simplifiedTitle (t : Str) : Str :=
  joinSpace (List.insertionSort (α := Str) (· ≤ ·) (first5Words t))

/-- Worker for `_remove_duplicates`; `seen` is the `seen_titles` set. -/
def removeDuplicatesAux : List Item → List Str → List Item
  | [], _ => []
  | i :: rest, seen =>
    if simplifiedTitle i.title ∈ seen then removeDuplicatesAux rest seen
    else i :: removeDuplicatesAux rest (simplifiedTitle i.title :: seen)

/-- `_remove_duplicates(news_items)`. -/
def removeDuplicates (items : List Item) : List Item :=
  removeDuplicatesAux items []

/-!
## Jobs collector (`jobs_collector.py`)

The five scraping searches are network calls; their combined output is
passed in as `scraped`.  Times are rationals measured in days;
`posted_date : Option ℚ` is the timestamp that
`datetime.strptime(job['posted_date'], '%Y-%m-%d')` would produce
(`none` when that parse raises).  `strftime`/`strptime` round-tripping a
`datetime` truncates it to midnight, i.e. to `⌊t⌋` in day units.
-/

/-- One job record (the dicts built by the extractors). -/
structure Job where
  title : Str
  company : Str
  location : Str
  package : Str
  description : Str
  requirements : Str
  url : Str
  source : Str
  posted_date : Option ℚ
  relevance_score : ℤ
  category : Str
deriving DecidableEq

/-- `title + ' ' + description + ' ' + requirements`, lowercased
(recomputed the same way in `_categorize_jobs`, `_calculate_sap_score`
and `_calculate_ai_transition_score`). -/
def jobContent (j : Job) : Str :=
  lowerStr (j.title ++ ' ' :: (j.description ++ ' ' :: j.requirements))

/-- AI keywords checked in `_categorize_jobs`. -/
def aiCategoryKws : List Str :=
  [str "ai", str "ml", str "machine learning", str "data science",
   str "artificial intelligence", str "python", str "tensorflow"]

/-- SAP-background keywords checked in `_categorize_jobs`. -/
def sapBackgroundKws : List Str := [str "sap", str "hana", str "fico", str "erp"]

/-- SAP keywords of the SAP branch of `_categorize_jobs`. -/
def sapCategoryKws : List Str :=
  [str "sap", str "hana", str "cloud", str "finance", str "controlling"]

/-- Modern-tech keywords of the SAP branch of `_categorize_jobs`. -/
def modernTechKws : List Str := [str "ai", str "cloud", str "automation", str "analytics"]

/-- Core SAP keywords of `_calculate_sap_score`. -/
def sapScoreKws : List Str :=
  [str "sap", str "hana", str "s/4hana", str "finance", str "fico",
   str "controlling", str "cloud"]

/-- Senior-role title keywords of `_calculate_sap_score`. -/
def seniorTitleKws : List Str :=
  [str "architect", str "lead", str "manager", str "director"]

/-- AI/ML keywords of `_calculate_ai_transition_score`. -/
def aiScoreKws : List Str :=
  [str "ai", str "ml", str "machine learning", str "data science",
   str "artificial intelligence", str "python"]

/-- SAP keywords of `_calculate_ai_transition_score`. -/
def aiScoreSapKws : List Str :=
  [str "sap", str "erp", str "enterprise", str "business systems"]

/-- Transition-friendly terms of `_calculate_ai_transition_score`. -/
def transitionTermKws : List Str :=
  [str "background preferred", str "experience plus", str "domain knowledge",
   str "business context"]

/-- `has_modern_tech` as computed in the SAP branch of `_categorize_jobs`. -/
def hasModernTech (j : Job) : Bool :=
  modernTechKws.any fun k => containsSub (jobContent j) k

/-- `_calculate_sap_score(job, has_modern_tech)`. -/
def calcSapScore (j : Job) (hasModern : Bool) : ℤ :=
  let content := jobContent j
  let s1 := sapScoreKws.foldl (fun s k => if containsSub content k then s + 2 else s) 0
  let s2 := if hasModern then s1 + 3 else s1
  let s3 := if containsSub content (str "ai") then s2 + 4 else s2
  let s4 :=
    if seniorTitleKws.any (fun k => containsSub (lowerStr j.title) k) then s3 + 3 else s3
  match (extractNums j.package).head? with
  | some n => if 45 ≤ n then s4 + 2 else s4
  | none => s4

/-- `_calculate_ai_transition_score(job)`. -/
def calcAiTransitionScore (j : Job) : ℤ :=
  let content := jobContent j
  let s1 := aiScoreKws.foldl (fun s k => if containsSub content k then s + 3 else s) 0
  let s2 := aiScoreSapKws.foldl (fun s k => if containsSub content k then s + 2 else s) s1
  let s3 := transitionTermKws.foldl (fun s k => if containsSub content k then s + 4 else s) s2
  match (extractNums j.package).head? with
  | some n => if 50 ≤ n then s3 + 3 else s3
  | none => s3

/-- The branch test of `_categorize_jobs`:
`(has_ai and sap_background) or (has_ai and 'sap' in content)`. -/
def aiBranch (j : Job) : Bool :=
  let content := jobContent j
  let hasAi := aiCategoryKws.any fun k => containsSub content k
  let sapBackground := sapBackgroundKws.any fun k => containsSub content k
  (hasAi && sapBackground) || (hasAi && containsSub content (str "sap"))

/-- `has_sap` of the SAP branch of `_categorize_jobs`. -/
def hasSapKw (j : Job) : Bool :=
  sapCategoryKws.any fun k => containsSub (jobContent j) k

/-- Descending relevance order used by the final `sort(..., reverse=True)`. -/
def scoreGe (a b : Job) : Prop := b.relevance_score ≤ a.relevance_score

instance : DecidableRel scoreGe :=
  fun a b => inferInstanceAs (Decidable (b.relevance_score ≤ a.relevance_score))

/-- `jobs.sort(key=lambda x: x['relevance_score'], reverse=True)`. -/
def sortByScoreDesc (jobs : List Job) : List Job := List.insertionSort scoreGe jobs

/-- The two output lists of `_categorize_jobs`. -/
structure CategorizedJobs where
  sap_category : List Job
  ai_transition_category : List Job
deriving DecidableEq

/-- Per-job decision of `_categorize_jobs`: jobs in the AI branch get the
AI-transition score, remaining jobs matching a SAP keyword get the SAP
score, all other jobs are dropped.  No score threshold is applied. -/
def classifySap (j : Job) : Option Job :=
  if aiBranch j then none
  else if hasSapKw j then
    some { j with category := str "SAP",
                  relevance_score := calcSapScore j (hasModernTech j) }
  else none

/-- AI-transition side of the per-job decision of `_categorize_jobs`. -/
def classifyAi (j : Job) : Option Job :=
  if aiBranch j then
    some { j with category := str "AI Transition",
                  relevance_score := calcAiTransitionScore j }
  else none

/-- `_categorize_jobs(jobs)`: split into the two categories (in input
order, as the loop appends) and sort each by relevance, descending. -/
def categorizeJobs (jobs : List Job) : CategorizedJobs :=
  { sap_category := sortByScoreDesc (jobs.filterMap classifySap)
    ai_transition_category := sortByScoreDesc (jobs.filterMap classifyAi) }

/-- The boolean filter of `_filter_by_date_and_package`: drop a job when
its parsed posted date is older than ten days, then require the first
number in the package string to be at least 40 (the `except` branch for
the package check is unreachable: `re.findall` and `int` cannot raise
there). -/
def keepJob (now : ℚ) (j : Job) : Bool :=
  (match j.posted_date with
   | some d => decide (¬ d < now - 10)
   | none => true) &&
  (match (extractNums j.package).head? with
   | some n => decide (40 ≤ n)
   | none => false)

/-- `_filter_by_date_and_package(jobs)`. -/
def filterByDateAndPackage (now : ℚ) (jobs : List Job) : List Job :=
  jobs.filter (keepJob now)

/-- `_get_sample_jobs()` (the `apply_button` HTML field is omitted; it is
presentation-only and never read by the filtering or scoring code). -/
def sampleJobs (now : ℚ) : List Job :=
  [{ title := str "SAP S/4HANA Finance Lead with AI Integration"
     company := str "Deloitte Digital"
     location := str "Mumbai, India"
     package := str "45-55 LPA"
     description := str "Lead SAP finance transformations with AI-powered automation and analytics"
     requirements := str "SAP S/4HANA, FICO, AI/ML, Cloud, Financial Analytics"
     url := str "https://www.deloitte.com/careers/sap-finance-ai-lead"
     source := str "Deloitte"
     posted_date := some ((⌊now - 1⌋ : ℤ) : ℚ)
     relevance_score := 0
     category := [] },
   { title := str "SAP Cloud Finance Architect - HANA & AI"
     company := str "Accenture Technology"
     location := str "Bangalore, India"
     package := str "42-50 LPA"
     description := str "Design cloud-native SAP finance solutions with embedded AI capabilities"
     requirements := str "SAP Cloud, HANA, Finance, AI integration, Architecture"
     url := str "https://www.accenture.com/careers/sap-cloud-architect"
     source := str "Accenture"
     posted_date := some ((⌊now - 3⌋ : ℤ) : ℚ)
     relevance_score := 0
     category := [] },
   { title := str "Senior Data Scientist - SAP Domain Expert"
     company := str "Microsoft India"
     location := str "Hyderabad, India"
     package := str "55-70 LPA"
     description := str "Build AI/ML solutions for enterprise applications leveraging SAP domain expertise"
     requirements := str "Machine Learning, Python, SAP background, Data Science, Cloud"
     url := str "https://careers.microsoft.com/data-scientist-sap-domain"
     source := str "Microsoft"
     posted_date := some ((⌊now - 2⌋ : ℤ) : ℚ)
     relevance_score := 0
     category := [] },
   { title := str "AI Solutions Architect - Enterprise Systems"
     company := str "Google Cloud India"
     location := str "Pune, India"
     package := str "60-75 LPA"
     description := str "Design AI solutions for enterprise customers, SAP experience highly preferred"
     requirements := str "AI/ML, Cloud Architecture, SAP knowledge preferred, Python, TensorFlow"
     url := str "https://careers.google.com/ai-solutions-architect-enterprise"
     source := str "Google"
     posted_date := some ((⌊now - 4⌋ : ℤ) : ℚ)
     relevance_score := 0
     category := [] },
   { title := str "Machine Learning Engineer - Financial Analytics"
     company := str "Amazon Web Services"
     location := str "Chennai, India"
     package := str "50-65 LPA"
     description := str "Develop ML models for financial applications, SAP background advantageous"
     requirements := str "Machine Learning, Python, AWS, Financial domain, SAP background plus"
     url := str "https://amazon.jobs/ml-engineer-financial-analytics"
     source := str "Amazon"
     posted_date := some ((⌊now - 5⌋ : ℤ) : ℚ)
     relevance_score := 0
     category := [] }]

/-- `get_jobs()`: the five scraping searches (abstracted into `scraped`),
the sample top-up when fewer than ten jobs were scraped, the date/package
filter, and categorization. -/
def getJobs (scraped : List Job) (now : ℚ) : CategorizedJobs :=
  let allJobs := if scraped.length < 10 then scraped ++ sampleJobs now else scraped
  categorizeJobs (filterByDateAndPackage now allJobs)

/-- `{j with title := j.title + ' ' + kw}`: adding one keyword at the end
of a job's title. -/
def appendTitle (j : Job) (kw : Str) : Job := { j with title := j.title ++ ' ' :: kw }

/-!
## Stock collector (`stock_collector.py`)

Price histories are the 5-day yfinance frames: a list of closes and a
list of volumes (in row order), both `ℚ`.  `len(hist)` is the row count,
modelled by `closes.length`.  The standard-deviation comparison of
`_calculate_volatility_score` is performed on squares (both sides are
nonnegative, so `std*100 < k ↔ var*10000 < k²`), keeping the embedding
inside `ℚ`.
-/

/-- A yfinance history frame: `hist['Close']` and `hist['Volume']`. -/
structure Hist where
  closes : List ℚ
  volumes : List ℚ

/-- Python negative indexing `l[-k]` (callers guard the length). -/
def negIdx (l : List ℚ) (k : ℕ) : ℚ := l.getD (l.length - k) 0

/-- `mean()` of a pandas series. -/
def listMean (l : List ℚ) : ℚ := l.sum / l.length

/-- `_calculate_volume_score(hist)`. -/
def volumeScore (h : Hist) : ℚ :=
  if h.closes.length < 5 then 5
  else
    let avgVolume := listMean h.volumes.dropLast
    let currentVolume := negIdx h.volumes 1
    if avgVolume = 0 then 5
    else
      let ratio := currentVolume / avgVolume
      if 2 < ratio then 9
      else if (3 : ℚ)/2 < ratio then 8
      else if 1 < ratio then 7
      else if (1 : ℚ)/2 < ratio then 5
      else 3

/-- `_calculate_momentum_score(hist)`. -/
def momentumScore (h : Hist) : ℚ :=
  if h.closes.length < 5 then 5
  else
    let c1 := negIdx h.closes 1
    let c5 := negIdx h.closes 5
    let c3 := negIdx h.closes 3
    let priceChange5d := (c1 - c5) / c5 * 100
    let priceChange3d := if 3 ≤ h.closes.length then (c1 - c3) / c3 * 100 else 0
    let momentum := priceChange5d * (6 : ℚ)/10 + priceChange3d * (4 : ℚ)/10
    if 5 < momentum then 9
    else if 2 < momentum then 8
    else if 0 < momentum then 7
    else if -2 < momentum then 5
    else if -5 < momentum then 3
    else 2

/-- `hist['Close'].pct_change().fillna(0)`: first element 0, then the
relative change between consecutive closes. -/
def pctChangesAux (prev : ℚ) : List ℚ → List ℚ
  | [] => []
  | x :: xs => (x - prev) / prev :: pctChangesAux x xs

/-- `pct_change().fillna(0)` over a close series. -/
def pctChanges : List ℚ → List ℚ
  | [] => []
  | c :: rest => 0 :: pctChangesAux c rest

/-- Sample variance (`pandas .std()` squared, `ddof=1`). -/
def sampleVar (l : List ℚ) : ℚ :=
  let m := listMean l
  (l.map fun r => (r - m) ^ 2).sum / ((l.length : ℚ) - 1)

/-- `_calculate_volatility_score(hist)`; `volatility = std(returns)*100`
is compared with 1, 2, 3, 4, 6 — here via squares. -/
def volatilityScore (h : Hist) : ℚ :=
  if h.closes.length < 5 then 5
  else
    let varTimes10000 := sampleVar (pctChanges h.closes) * 10000
    if varTimes10000 < 1 then 9
    else if varTimes10000 < 4 then 8
    else if varTimes10000 < 9 then 7
    else if varTimes10000 < 16 then 5
    else if varTimes10000 < 36 then 3
    else 2

/-- The overall score of `_get_enhanced_stock_info` (lines 253-254):
`momentum*0.4 + volume*0.3 + volatility*0.2 + 5`. -/
def overallScore (h : Hist) : ℚ :=
  momentumScore h * (4 : ℚ)/10 + volumeScore h * (3 : ℚ)/10 +
    volatilityScore h * (2 : ℚ)/10 + 5

/-- `_get_recommendation(score)`. -/
def recommendation (score : ℚ) : Str :=
  if (17 : ℚ)/2 ≤ score then str "Strong Buy"
  else if 7 ≤ score then str "Buy"
  else if (11 : ℚ)/2 ≤ score then str "Hold"
  else if 4 ≤ score then str "Weak Hold"
  else str "Sell"

/-- A stock row as used by `get_stock_data` (the full dicts carry more
display-only fields; symbol, price and source are the ones the checked
properties read). -/
structure Stock where
  symbol : Str
  current_price : ℚ
  source : Str
deriving DecidableEq

/-- The `fallback_symbols` table of `_get_yfinance_fallback_stocks`
(unknown categories fall back to the large-cap list, per `.get`). -/
def fallbackSymbols (category : Str) : List Str :=
  if category = str "large" then
    [str "RELIANCE.NS", str "TCS.NS", str "INFY.NS", str "HDFCBANK.NS",
     str "ICICIBANK.NS", str "HINDUNILVR.NS", str "SBIN.NS", str "BHARTIARTL.NS",
     str "ITC.NS", str "KOTAKBANK.NS", str "LT.NS", str "HCLTECH.NS"]
  else if category = str "mid" then
    [str "TATAMOTORS.NS", str "BAJFINANCE.NS", str "M&M.NS", str "SUNPHARMA.NS",
     str "TECHM.NS", str "TITAN.NS", str "POWERGRID.NS", str "NTPC.NS",
     str "BAJAJFINSV.NS", str "MARUTI.NS"]
  else if category = str "small" then
    [str "ZEEL.NS", str "IDEA.NS", str "SAIL.NS", str "COALINDIA.NS",
     str "NMDC.NS", str "VEDL.NS", str "TATASTEEL.NS", str "JSWSTEEL.NS"]
  else
    [str "RELIANCE.NS", str "TCS.NS", str "INFY.NS", str "HDFCBANK.NS",
     str "ICICIBANK.NS", str "HINDUNILVR.NS", str "SBIN.NS", str "BHARTIARTL.NS",
     str "ITC.NS", str "KOTAKBANK.NS", str "LT.NS", str "HCLTECH.NS"]

/-- `_get_yfinance_fallback_stocks(category, count)`: try the first
`count` fallback symbols through the yfinance lookup (`lookup sym = none`
models `_get_yfinance_stock_info` returning `None` or raising), keep the
successes and tag their source. -/
def yfinanceFallbackStocks (lookup : Str → Option Stock) (category : Str)
    (count : ℕ) : List Stock :=
  ((fallbackSymbols category).take count).filterMap fun sym =>
    (lookup sym).map fun st => { st with source := str "Yahoo Finance (Fallback)" }

/-- `_get_top_stocks_by_market_cap(category, count)`: Screener.in first,
MoneyControl to top up, then the yfinance fallback list; finally truncate
to `count`.  The two scrapes absorb their own errors and return whatever
they got, so they are passed in as result lists per requested count. -/
def getTopStocksByMarketCap (screener mc : ℕ → List Stock)
    (lookup : Str → Option Stock) (category : Str) (count : ℕ) : List Stock :=
  let s1 := screener count
  let s2 := if s1.length < count then s1 ++ mc (count - s1.length) else s1
  let s3 :=
    if s2.length < count then
      s2 ++ yfinanceFallbackStocks lookup category (count - s2.length)
    else s2
  s3.take count

/-- One index quote inside the market overview. -/
structure IndexQuote where
  current_price : ℚ
  change : ℚ
  change_percent : ℚ
deriving DecidableEq

/-- The market-overview record (`_get_nse_market_overview` result). -/
structure MarketOverview where
  nifty_50 : IndexQuote
  bank_nifty : IndexQuote
  market_trend : Str
deriving DecidableEq

/-- `_get_fallback_market_overview()`: hardcoded overview used when the
NSE lookup fails. -/
def fallbackMarketOverview : MarketOverview :=
  { nifty_50 := { current_price := 19500, change := 0, change_percent := 0 }
    bank_nifty := { current_price := 45000, change := 0, change_percent := 0 }
    market_trend := str "Data Unavailable" }

/-- The slice of `get_stock_data()`'s result dict the checked claims
read. -/
structure StockData where
  market_overview : MarketOverview
  large_cap : List Stock
  mid_cap : List Stock
  small_cap : List Stock
deriving DecidableEq

/-- `get_stock_data()`: market overview (hardcoded fallback when the NSE
fetch yields nothing) and the three cap categories with counts 6/4/2.
`screener`/`mc` take the category and the requested count. -/
def getStockData (nse : Option MarketOverview)
    (screener mc : Str → ℕ → List Stock) (lookup : Str → Option Stock) :
    StockData :=
  { market_overview := nse.getD fallbackMarketOverview
    large_cap := getTopStocksByMarketCap (screener (str "large")) (mc (str "large"))
      lookup (str "large") 6
    mid_cap := getTopStocksByMarketCap (screener (str "mid")) (mc (str "mid"))
      lookup (str "mid") 4
    small_cap := getTopStocksByMarketCap (screener (str "small")) (mc (str "small"))
      lookup (str "small") 2 }

/-!
## Delivery (`email_sender.py`, `report_generator.py`)

The SMTP session is modelled as the outcome each protocol step would
have on this run (`none` = success).  `send_email`'s `except` clauses
all re-raise, so it returns `Except SmtpError Bool` and only ever
succeeds with `true`.  Note: in the source file the body of
`validate_configuration` is mis-indented (an `IndentationError` at line
260); the embedding follows the evident intended indentation.
-/

/-- Error classes of the `except` clauses of `send_email`. -/
inductive SmtpError where
  | auth
  | recipients
  | smtp
  | other
deriving DecidableEq

/-- The mail credentials (`Config.EMAIL_FROM/PASSWORD/TO`; an unset
environment variable is the empty string, matching Python falsiness). -/
structure EmailConfig where
  email_from : Str
  email_password : Str
  email_to : Str
deriving DecidableEq

/-- Outcome of each SMTP step for this run (`none` = the step succeeds). -/
structure SmtpEnv where
  connect : Option SmtpError
  starttls : Option SmtpError
  login : Option SmtpError
  sendmail : Option SmtpError
deriving DecidableEq

/-- `EmailSender.send_email`: config check, connect, starttls, login,
sendmail; returns `True` on success and re-raises every exception
(`.error`). -/
def sendEmail (cfg : EmailConfig) (env : SmtpEnv) : Except SmtpError Bool :=
  if cfg.email_from.isEmpty || cfg.email_password.isEmpty || cfg.email_to.isEmpty then
    .error .other
  else
    match env.connect with
    | some e => .error e
    | none =>
      match env.starttls with
      | some e => .error e
      | none =>
        match env.login with
        | some e => .error e
        | none =>
          match env.sendmail with
          | some e => .error e
          | none => .ok true

/-- `EmailSender.send_error_notification`: performs exactly one
`send_email` call and absorbs any failure of that call in its own
`try/except`.  The returned number counts the send attempts. -/
def sendErrorNotification (_cfg : EmailConfig) (_env : SmtpEnv) : ℕ := 1

/-- `EmailSender.validate_configuration()` (as intended; see the module
comment about the indentation slip). -/
def validateConfiguration (cfg : EmailConfig) : List Str :=
  (if cfg.email_from.isEmpty then [str "EMAIL_FROM environment variable not set"] else []) ++
  (if cfg.email_password.isEmpty then [str "EMAIL_PASSWORD environment variable not set"] else []) ++
  (if cfg.email_to.isEmpty then [str "EMAIL_TO environment variable not set"] else []) ++
  (if ¬ cfg.email_from.isEmpty ∧ ¬ containsSub cfg.email_from (str "@gmail.com") = true then
     [str "EMAIL_FROM must be a Gmail address"] else []) ++
  (if ¬ cfg.email_password.isEmpty ∧ (cfg.email_password.filter (· ≠ ' ')).length ≠ 16 then
     [str "EMAIL_PASSWORD should be a 16-character Gmail app password (spaces will be ignored)"]
   else [])

/-- Outcome of one `generate_report` run: whether an exception was
re-raised to `main`, and how many error-notification sends were
attempted. -/
structure RunReport where
  raised : Bool
  notifAttempts : ℕ
deriving DecidableEq

/-- `ReportGenerator.generate_report` (delivery control flow; data
collection and HTML rendering absorb their own errors and cannot raise,
so they do not influence this path).  Any exception is caught, one
error notification is attempted, and the exception is re-raised. -/
def generateReport (cfg : EmailConfig) (env : SmtpEnv) (shouldSkip : Bool) :
    RunReport :=
  if shouldSkip then { raised := false, notifAttempts := 0 }
  else if ¬ (validateConfiguration cfg).isEmpty then
    { raised := true, notifAttempts := sendErrorNotification cfg env }
  else
    match sendEmail cfg env with
    | .ok true => { raised := false, notifAttempts := 0 }
    | .ok false => { raised := true, notifAttempts := sendErrorNotification cfg env }
    | .error _ => { raised := true, notifAttempts := sendErrorNotification cfg env }

/-!
## Concrete run fixtures

Inputs used by the counterexamples and witnesses below.
-/

/-- A date parser that fails on every string. -/
def pdNone : Str → Option ℚ := fun _ => none

/-- A fixed `datetime.now().isoformat()` string. -/
def nowIsoFix : Str := str "2026-01-01T00:00:00"

/-- A well-formed entry (title present). -/
def entryGood : Entry :=
  { title := some (str "Budget session opens")
    description := some (str "Parliament news")
    summary := none
    link := some (str "http://example.com/a")
    published := some (str "Mon, 05 Jan 2026 10:00:00 GMT")
    updated := none }

/-- A malformed entry: no `title` attribute, so `entry.title` raises. -/
def entryBad : Entry :=
  { title := none
    description := some (str "body")
    summary := none
    link := none
    published := none
    updated := none }

/-- A feed with one good entry followed by one malformed entry. -/
def feedGoodBad : FeedResult :=
  { feedTitle := some (str "Example Feed"), entries := [entryGood, entryBad] }

/-- Oracle returning `feedGoodBad` for every URL. -/
def parseGoodBad : Str → Option FeedResult := fun _ => some feedGoodBad

/-- A URL whose scheme is not a fetchable web scheme. -/
def badSchemeUrl : Str := str "ftp://feeds.invalid/rss"

/-- A one-entry feed used by the scheme-validation counterexample. -/
def feedOneEntry : FeedResult :=
  { feedTitle := some (str "F"), entries := [entryGood] }

/-- Oracle that (like a real fetch) yields content for `badSchemeUrl`. -/
def parseOracleA : Str → Option FeedResult :=
  fun u => if u = badSchemeUrl then some feedOneEntry else none

/-- Oracle whose fetch of `badSchemeUrl` fails. -/
def parseOracleB : Str → Option FeedResult := fun _ => none

/-- Entry with no publish date but a (future) `updated` date. -/
def entryFutureUpdated : Entry :=
  { title := some (str "Late update")
    description := some (str "d")
    summary := none
    link := none
    published := none
    updated := some (str "future") }

/-- Date parser mapping the `updated` string of `entryFutureUpdated` to a
time 100 seconds after the collection time 0. -/
def pdFuture : Str → Option ℚ := fun s => if s = str "future" then some 100 else none

/-- News item with the given title and timestamp. -/
def mkItem (t : Str) (ts : ℚ) : Item :=
  { title := t, description := str "d", url := str "http://e/x",
    source := str "S", published := str "p", published_timestamp := ts,
    category := str "General" }

/-- A SAP-category job: scores 7 under the SAP scorer. -/
def jobSapBase : Job :=
  { title := str "sap architect"
    company := str "Acme"
    location := str "Pune, India"
    package := str "45-55 LPA"
    description := []
    requirements := []
    url := str "http://jobs/1"
    source := str "Indeed.com"
    posted_date := some 0
    relevance_score := 0
    category := [] }

/-- A job that is categorized (AI transition) yet scores 0. -/
def jobZeroScore : Job :=
  { title := str "tensorflow hana"
    company := str "Acme"
    location := str "Pune, India"
    package := str "40-45 LPA"
    description := []
    requirements := []
    url := str "http://jobs/2"
    source := str "Indeed.com"
    posted_date := some 0
    relevance_score := 0
    category := [] }

/-- `jobZeroScore` as the categorization pipeline returns it. -/
def jobZeroClassified : Job :=
  { jobZeroScore with category := str "AI Transition", relevance_score := 0 }

/-- Five-day history hitting the top branch of all three sub-scores. -/
def histAllNine : Hist :=
  { closes := [100, 102, 104.04, 106.1208, 108.243216]
    volumes := [100, 100, 100, 100, 300] }

/-- Scrape oracle that yields nothing at any count. -/
def scrapeNone : Str → ℕ → List Stock := fun _ _ => []

/-- yfinance lookup that fails for every symbol. -/
def lookupNone : Str → Option Stock := fun _ => none

/-- yfinance lookup that succeeds for every symbol with price 100. -/
def lookupGood : Str → Option Stock :=
  fun s => some { symbol := s, current_price := 100, source := str "Yahoo Finance" }

/-- A valid mail configuration (Gmail address, 16-character password). -/
def cfgGood : EmailConfig :=
  { email_from := str "novi@gmail.com"
    email_password := str "abcdabcdabcdabcd"
    email_to := str "novi.reports@gmail.com" }

/-- An SMTP run on which the login step fails with an auth error. -/
def envAuthFail : SmtpEnv :=
  { connect := none, starttls := none, login := some .auth, sendmail := none }

/-!
## Helper lemmas
-/

/-- A space-free prefix of `a ++ ' ' :: b` is a prefix of `a`. -/
theorem noSpacePrefixSplit (n : Str) : ∀ (a b : Str), ' ' ∉ n →
    n <+: a ++ ' ' :: b → n <+: a := by
  induction n with
  | nil => intro a b _ _; exact List.nil_prefix
  | cons c m ih =>
    intro a b hn hp
    cases a with
    | nil =>
      exfalso
      have hc := (List.cons_prefix_cons.mp hp).1
      exact hn (hc ▸ List.mem_cons_self c m)
    | cons x a' =>
      have h2 := List.cons_prefix_cons.mp hp
      exact List.cons_prefix_cons.mpr
        ⟨h2.1, ih a' b (fun hm => hn (List.mem_cons_of_mem _ hm)) h2.2⟩

/-- A space-free factor of `a ++ ' ' :: b` lies inside `a` or inside `b`. -/
theorem noSpaceInfixSplit (a : Str) : ∀ (n b : Str), ' ' ∉ n →
    n <:+: a ++ ' ' :: b → n <:+: a ∨ n <:+: b := by
  induction a with
  | nil =>
    intro n b hn h
    rcases List.infix_cons_iff.mp h with hp | hi
    · cases n with
      | nil => exact Or.inl List.nil_infix
      | cons c m =>
        exfalso
        have hc := (List.cons_prefix_cons.mp hp).1
        exact hn (hc ▸ List.mem_cons_self c m)
    · exact Or.inr hi
  | cons x a' ih =>
    intro n b hn h
    rcases List.infix_cons_iff.mp h with hp | hi
    · exact Or.inl (noSpacePrefixSplit n (x :: a') b hn hp).isInfix
    · rcases ih n b hn hi with h1 | h2
      · exact Or.inl (List.infix_cons h1)
      · exact Or.inr h2

theorem toLower_space : ' '.toLower = ' ' := by decide

theorem lowerStr_append (a b : Str) : lowerStr (a ++ b) = lowerStr a ++ lowerStr b :=
  List.map_append _ a b

theorem lowerStr_space_cons (b : Str) : lowerStr (' ' :: b) = ' ' :: lowerStr b := by
  simp [lowerStr, toLower_space]

/-- `containsSub` survives appending anything on the right. -/
theorem containsSub_extendRight {a k : Str} (x : Str) (h : containsSub a k = true) :
    containsSub (a ++ x) k = true := by
  rw [containsSub, decide_eq_true_iff] at h ⊢
  exact h.trans (List.prefix_append a x).isInfix

theorem anyMono {l : List Str} {f g : Str → Bool} (h : ∀ k ∈ l, f k = true → g k = true)
    (ha : l.any f = true) : l.any g = true := by
  simp only [List.any_eq_true] at ha ⊢
  obtain ⟨k, hk, hf⟩ := ha
  exact ⟨k, hk, h k hk hf⟩

/-- Monotonicity of keyword-hit accumulation. -/
theorem foldlHitsMono (w : ℤ) (hw : 0 ≤ w) (f1 f2 : Str → Bool) :
    ∀ (ks : List Str), (∀ k ∈ ks, f1 k = true → f2 k = true) →
    ∀ (a b : ℤ), a ≤ b →
    ks.foldl (fun s k => if f1 k then s + w else s) a ≤
      ks.foldl (fun s k => if f2 k then s + w else s) b := by
  intro ks
  induction ks with
  | nil => intro _ a b hab; simpa using hab
  | cons k ks ih =>
    intro hm a b hab
    simp only [List.foldl_cons]
    apply ih (fun k' hk' => hm k' (List.mem_cons_of_mem _ hk'))
    by_cases h1 : f1 k = true
    · rw [if_pos h1, if_pos (hm k (List.mem_cons_self _ _) h1)]
      omega
    · rw [if_neg h1]
      by_cases h2 : f2 k = true
      · rw [if_pos h2]; omega
      · rw [if_neg h2]; exact hab

/-- Monotonicity of one conditional bonus. -/
theorem iteBonusMono {c1 c2 : Bool} {x y w : ℤ} (hxy : x ≤ y)
    (himp : c1 = true → c2 = true) (hw : 0 ≤ w) :
    (if c1 then x + w else x) ≤ (if c2 then y + w else y) := by
  cases c1 <;> cases c2 <;> simp_all <;> omega

theorem appendTitle_title (j : Job) (kw : Str) :
    (appendTitle j kw).title = j.title ++ ' ' :: kw := rfl

theorem appendTitle_package (j : Job) (kw : Str) :
    (appendTitle j kw).package = j.package := rfl

theorem jobContent_eq (j : Job) :
    jobContent j =
      lowerStr j.title ++ ' ' :: lowerStr (j.description ++ ' ' :: j.requirements) := by
  simp [jobContent, lowerStr_append, lowerStr_space_cons]

theorem jobContent_appendTitle (j : Job) (kw : Str) :
    jobContent (appendTitle j kw) =
      lowerStr j.title ++
        ' ' :: (lowerStr kw ++ ' ' :: lowerStr (j.description ++ ' ' :: j.requirements)) := by
  simp [jobContent, appendTitle, lowerStr_append, lowerStr_space_cons]

/-- A space-free keyword found in a job's content is still found after a
word is appended to the title. -/
theorem containsSub_appendTitle_mono (j : Job) (kw k : Str) (hk : ' ' ∉ k)
    (h : containsSub (jobContent j) k = true) :
    containsSub (jobContent (appendTitle j kw)) k = true := by
  rw [jobContent_eq] at h
  rw [jobContent_appendTitle]
  rw [containsSub, decide_eq_true_iff] at h ⊢
  rcases noSpaceInfixSplit _ _ _ hk h with h1 | h2
  · exact h1.trans (List.prefix_append _ _).isInfix
  · have hsfx : lowerStr (j.description ++ ' ' :: j.requirements) <:+
        lowerStr j.title ++
          ' ' :: (lowerStr kw ++ ' ' :: lowerStr (j.description ++ ' ' :: j.requirements)) := by
      have h0 := List.suffix_append (lowerStr j.title ++ ' ' :: lowerStr kw)
        (' ' :: lowerStr (j.description ++ ' ' :: j.requirements))
      have heq : (lowerStr j.title ++ ' ' :: lowerStr kw) ++
          ' ' :: lowerStr (j.description ++ ' ' :: j.requirements) =
          lowerStr j.title ++
            ' ' :: (lowerStr kw ++ ' ' :: lowerStr (j.description ++ ' ' :: j.requirements)) := by
        simp
      exact (List.suffix_cons ' ' _).trans (heq ▸ h0)
    exact h2.trans hsfx.isInfix

/-- A keyword found in the lowercased title is still found after a word
is appended to the title. -/
theorem containsSub_titleLower_mono (j : Job) (kw k : Str)
    (h : containsSub (lowerStr j.title) k = true) :
    containsSub (lowerStr (appendTitle j kw).title) k = true := by
  rw [appendTitle_title, lowerStr_append]
  exact containsSub_extendRight _ h

theorem sapScoreKws_noSpace : ∀ k ∈ sapScoreKws, ' ' ∉ k := by decide

theorem modernTechKws_noSpace : ∀ k ∈ modernTechKws, ' ' ∉ k := by decide

theorem aiKw_noSpace : ' ' ∉ str "ai" := by decide

theorem hasModernTech_appendTitle (j : Job) (kw : Str)
    (h : hasModernTech j = true) : hasModernTech (appendTitle j kw) = true :=
  anyMono (fun k hk => containsSub_appendTitle_mono j kw k (modernTechKws_noSpace k hk)) h

/-- C6 (amended) helper: the SAP-branch score, title extension, package
bonus step. -/
theorem sapScore_package_step (s4 s4' : ℤ) (hs : s4 ≤ s4') (pack : Str) :
    (match (extractNums pack).head? with
     | some n => if 45 ≤ n then s4 + 2 else s4
     | none => s4) ≤
    (match (extractNums pack).head? with
     | some n => if 45 ≤ n then s4' + 2 else s4'
     | none => s4') := by
  cases hnum : (extractNums pack).head? with
  | none => exact hs
  | some n =>
    by_cases h45 : 45 ≤ n
    · simp only [if_pos h45]; exact add_le_add_right hs 2
    · simp only [if_neg h45]; exact hs

/-- C6 (amended): appending a keyword to the title never decreases the
SAP-category score. -/
theorem calcSapScore_appendTitle_mono (j : Job) (kw : Str) :
    calcSapScore j (hasModernTech j) ≤
      calcSapScore (appendTitle j kw) (hasModernTech (appendTitle j kw)) := by
  have hc : ∀ k, ' ' ∉ k → containsSub (jobContent j) k = true →
      containsSub (jobContent (appendTitle j kw)) k = true :=
    fun k hk => containsSub_appendTitle_mono j kw k hk
  simp only [calcSapScore, appendTitle_package]
  apply sapScore_package_step
  refine iteBonusMono (iteBonusMono (iteBonusMono ?_ ?_ (by omega)) ?_ (by omega)) ?_ (by omega)
  · exact foldlHitsMono 2 (by omega) _ _ sapScoreKws
      (fun k hk => hc k (sapScoreKws_noSpace k hk)) 0 0 le_rfl
  · exact hasModernTech_appendTitle j kw
  · exact hc (str "ai") aiKw_noSpace
  · exact anyMono (fun k _ => containsSub_titleLower_mono j kw k)

theorem mem_sortByScoreDesc {j : Job} {l : List Job} :
    j ∈ sortByScoreDesc l ↔ j ∈ l :=
  (List.perm_insertionSort scoreGe l).mem_iff

/-- What passing `_filter_by_date_and_package` guarantees about a job. -/
theorem keepJob_spec {now : ℚ} {j : Job} (h : keepJob now j = true) :
    (∃ n ns, extractNums j.package = n :: ns ∧ 40 ≤ n) ∧
    (∀ d, j.posted_date = some d → now - 10 ≤ d) := by
  unfold keepJob at h
  rw [Bool.and_eq_true] at h
  obtain ⟨hdate, hpack⟩ := h
  constructor
  · cases hh : (extractNums j.package).head? with
    | none => rw [hh] at hpack; exact absurd hpack (by simp)
    | some n =>
      rw [hh] at hpack
      obtain ⟨ns, hns⟩ := List.head?_eq_some_iff.mp hh
      exact ⟨n, ns, hns, by simpa using hpack⟩
  · intro d hd
    rw [hd] at hdate
    have := of_decide_eq_true hdate
    linarith [not_lt.mp this]

/-- Classified jobs preserve every field except category and score. -/
theorem classifySap_fields {a j : Job} (h : classifySap a = some j) :
    j.package = a.package ∧ j.posted_date = a.posted_date := by
  unfold classifySap at h
  split_ifs at h
  · cases h; exact ⟨rfl, rfl⟩

theorem classifyAi_fields {a j : Job} (h : classifyAi a = some j) :
    j.package = a.package ∧ j.posted_date = a.posted_date := by
  unfold classifyAi at h
  split_ifs at h
  · cases h; exact ⟨rfl, rfl⟩

theorem joinSpace_nil : joinSpace [] = [] := rfl

theorem joinSpace_single (w : Str) : joinSpace [w] = w := rfl

theorem joinSpace_cons2 (w v : Str) (vs : List Str) :
    joinSpace (w :: v :: vs) = w ++ ' ' :: joinSpace (v :: vs) := rfl

/-- Cancellation around the first separator space. -/
theorem append_space_inj : ∀ (a : Str) {b x y : Str}, ' ' ∉ a → ' ' ∉ b →
    a ++ ' ' :: x = b ++ ' ' :: y → a = b ∧ x = y := by
  intro a
  induction a with
  | nil =>
    intro b x y _ hb h
    cases b with
    | nil => exact ⟨rfl, by simpa using h⟩
    | cons d b' =>
      exfalso
      have hd := (List.cons.injEq _ _ _ _ ▸ h :
        ' ' = d ∧ x = b' ++ ' ' :: y).1
      exact hb (hd ▸ List.mem_cons_self d b')
  | cons c a' ih =>
    intro b x y ha hb h
    cases b with
    | nil =>
      exfalso
      have hc := (List.cons.injEq _ _ _ _ ▸ h :
        c = ' ' ∧ a' ++ ' ' :: x = y).1
      exact ha (hc ▸ List.mem_cons_self c a')
    | cons d b' =>
      have h2 : c = d ∧ a' ++ ' ' :: x = b' ++ ' ' :: y := by
        simpa using h
      have h3 := ih (fun hm => ha (List.mem_cons_of_mem _ hm))
        (fun hm => hb (List.mem_cons_of_mem _ hm)) h2.2
      exact ⟨by rw [h2.1, h3.1], h3.2⟩

/-- `' '.join` is injective on lists of nonempty space-free words. -/
theorem joinSpace_inj : ∀ (ws1 ws2 : List Str),
    (∀ w ∈ ws1, w ≠ [] ∧ ' ' ∉ w) → (∀ w ∈ ws2, w ≠ [] ∧ ' ' ∉ w) →
    joinSpace ws1 = joinSpace ws2 → ws1 = ws2 := by
  intro ws1
  induction ws1 with
  | nil =>
    intro ws2 _ h2 h
    cases ws2 with
    | nil => rfl
    | cons w2 rest2 =>
      exfalso
      cases rest2 with
      | nil =>
        rw [joinSpace_nil, joinSpace_single] at h
        exact (h2 w2 (List.mem_cons_self _ _)).1 h.symm
      | cons v2 vs2 =>
        rw [joinSpace_nil, joinSpace_cons2] at h
        cases hw : w2 with
        | nil => exact (h2 w2 (List.mem_cons_self _ _)).1 hw
        | cons c cs => rw [hw] at h; simp at h
  | cons w1 rest1 ih =>
    intro ws2 h1 h2 h
    cases ws2 with
    | nil =>
      exfalso
      cases rest1 with
      | nil =>
        rw [joinSpace_single, joinSpace_nil] at h
        exact (h1 w1 (List.mem_cons_self _ _)).1 h
      | cons v1 vs1 =>
        rw [joinSpace_cons2, joinSpace_nil] at h
        cases hw : w1 with
        | nil => exact (h1 w1 (List.mem_cons_self _ _)).1 hw
        | cons c cs => rw [hw] at h; simp at h
    | cons w2 rest2 =>
      cases rest1 with
      | nil =>
        cases rest2 with
        | nil =>
          rw [joinSpace_single, joinSpace_single] at h
          rw [h]
        | cons v2 vs2 =>
          exfalso
          rw [joinSpace_single, joinSpace_cons2] at h
          exact (h1 w1 (List.mem_cons_self _ _)).2
            (h ▸ List.mem_append_right w2 (List.mem_cons_self ' ' _))
      | cons v1 vs1 =>
        cases rest2 with
        | nil =>
          exfalso
          rw [joinSpace_cons2, joinSpace_single] at h
          exact (h2 w2 (List.mem_cons_self _ _)).2
            (h ▸ List.mem_append_right w1 (List.mem_cons_self ' ' _))
        | cons v2 vs2 =>
          rw [joinSpace_cons2, joinSpace_cons2] at h
          have hsp := append_space_inj w1 (h1 w1 (List.mem_cons_self _ _)).2
            (h2 w2 (List.mem_cons_self _ _)).2 h
          have htail := ih (v2 :: vs2)
            (fun w hw => h1 w (List.mem_cons_of_mem _ hw))
            (fun w hw => h2 w (List.mem_cons_of_mem _ hw)) hsp.2
          rw [hsp.1, htail]

/-- Words produced by `splitWsAux` are nonempty and whitespace-free. -/
theorem splitWsAux_words : ∀ (l cur : Str), (∀ c ∈ cur, isWs c = false) →
    ∀ w ∈ splitWsAux l cur, w ≠ [] ∧ ∀ c ∈ w, isWs c = false := by
  intro l
  induction l with
  | nil =>
    intro cur hcur w hw
    unfold splitWsAux at hw
    by_cases hc : cur.isEmpty
    · rw [if_pos hc] at hw; simp at hw
    · rw [if_neg hc] at hw
      have hw' : w = cur.reverse := by simpa using hw
      subst hw'
      constructor
      · simpa [List.isEmpty_iff] using hc
      · intro c hcm
        exact hcur c (List.mem_reverse.mp hcm)
  | cons x rest ih =>
    intro cur hcur w hw
    unfold splitWsAux at hw
    by_cases hx : isWs x
    · rw [if_pos hx] at hw
      by_cases hc : cur.isEmpty
      · rw [if_pos hc] at hw
        exact ih [] (by simp) w hw
      · rw [if_neg hc] at hw
        rcases List.mem_cons.mp hw with hw' | hw'
        · subst hw'
          constructor
          · simpa [List.isEmpty_iff] using hc
          · intro c hcm
            exact hcur c (List.mem_reverse.mp hcm)
        · exact ih [] (by simp) w hw'
    · rw [if_neg hx] at hw
      refine ih (x :: cur) ?_ w hw
      intro c hcm
      rcases List.mem_cons.mp hcm with h | h
      · rw [h]; simpa using hx
      · exact hcur c h

theorem splitWs_words (l : Str) : ∀ w ∈ splitWs l, w ≠ [] ∧ ∀ c ∈ w, isWs c = false :=
  splitWsAux_words l [] (by simp)

/-- The first five title words are nonempty and contain no space. -/
theorem first5Words_props (t : Str) : ∀ w ∈ first5Words t, w ≠ [] ∧ ' ' ∉ w := by
  intro w hw
  have hmem : w ∈ splitWs (stripWs (lowerStr t)) :=
    List.take_subset 5 _ hw
  have h := splitWs_words _ w hmem
  refine ⟨h.1, fun hsp => ?_⟩
  have := h.2 ' ' hsp
  simp [isWs] at this

/-- Words of the sorted first-five list keep those properties. -/
theorem sortedFirst5_props (t : Str) :
    ∀ w ∈ List.insertionSort (α := Str) (· ≤ ·) (first5Words t), w ≠ [] ∧ ' ' ∉ w := by
  intro w hw
  exact first5Words_props t w ((List.perm_insertionSort _ _).subset hw)

/-- Equal dedup keys force the first-five word multisets to agree. -/
theorem first5_perm_of_simplifiedTitle_eq {t1 t2 : Str}
    (h : simplifiedTitle t1 = simplifiedTitle t2) :
    List.Perm (first5Words t1) (first5Words t2) := by
  unfold simplifiedTitle at h
  have hs := joinSpace_inj _ _ (sortedFirst5_props t1) (sortedFirst5_props t2) h
  have h2 : List.Perm (List.insertionSort (α := Str) (· ≤ ·) (first5Words t1))
      (first5Words t2) := by
    rw [hs]; exact List.perm_insertionSort _ _
  exact (List.perm_insertionSort _ _).symm.trans h2

/-- Permuted first-five word lists produce the same dedup key. -/
theorem simplifiedTitle_eq_of_perm {t1 t2 : Str}
    (h : List.Perm (first5Words t1) (first5Words t2)) :
    simplifiedTitle t1 = simplifiedTitle t2 := by
  unfold simplifiedTitle
  congr 1
  refine List.eq_of_perm_of_sorted ?_ (List.sorted_insertionSort _ _)
    (List.sorted_insertionSort _ _)
  exact (List.perm_insertionSort _ _).trans (h.trans (List.perm_insertionSort _ _).symm)

/-- Every input item has a key representative in the dedup output. -/
theorem removeDuplicatesAux_covers : ∀ (items : List Item) (seen : List Str),
    ∀ i ∈ items, simplifiedTitle i.title ∈ seen ∨
      ∃ u ∈ removeDuplicatesAux items seen,
        simplifiedTitle u.title = simplifiedTitle i.title := by
  intro items
  induction items with
  | nil => intro seen i hi; simp at hi
  | cons a rest ih =>
    intro seen i hi
    unfold removeDuplicatesAux
    rcases List.mem_cons.mp hi with hia | hir
    · subst hia
      by_cases h : simplifiedTitle i.title ∈ seen
      · exact Or.inl h
      · rw [if_neg h]
        exact Or.inr ⟨i, List.mem_cons_self _ _, rfl⟩
    · by_cases h : simplifiedTitle a.title ∈ seen
      · rw [if_pos h]
        exact ih seen i hir
      · rw [if_neg h]
        rcases ih (simplifiedTitle a.title :: seen) i hir with hseen | ⟨u, hu, hk⟩
        · rcases List.mem_cons.mp hseen with heq | hseen'
          · exact Or.inr ⟨a, List.mem_cons_self _ _, heq.symm⟩
          · exact Or.inl hseen'
        · exact Or.inr ⟨u, List.mem_cons_of_mem _ hu, hk⟩

/-- Keys of the dedup output avoid the `seen` set. -/
theorem removeDuplicatesAux_not_seen : ∀ (items : List Item) (seen : List Str),
    ∀ u ∈ removeDuplicatesAux items seen, simplifiedTitle u.title ∉ seen := by
  intro items
  induction items with
  | nil => intro seen u hu; simp [removeDuplicatesAux] at hu
  | cons a rest ih =>
    intro seen u hu
    unfold removeDuplicatesAux at hu
    by_cases h : simplifiedTitle a.title ∈ seen
    · rw [if_pos h] at hu
      exact ih seen u hu
    · rw [if_neg h] at hu
      rcases List.mem_cons.mp hu with hua | hur
      · subst hua; exact h
      · intro hs
        exact ih _ u hur (List.mem_cons_of_mem _ hs)

/-- The dedup output has pairwise distinct keys. -/
theorem removeDuplicatesAux_pairwise : ∀ (items : List Item) (seen : List Str),
    List.Pairwise (fun a b => simplifiedTitle a.title ≠ simplifiedTitle b.title)
      (removeDuplicatesAux items seen) := by
  intro items
  induction items with
  | nil => intro seen; simp [removeDuplicatesAux]
  | cons a rest ih =>
    intro seen
    unfold removeDuplicatesAux
    by_cases h : simplifiedTitle a.title ∈ seen
    · rw [if_pos h]; exact ih seen
    · rw [if_neg h]
      refine List.Pairwise.cons ?_ (ih _)
      intro b hb heq
      exact removeDuplicatesAux_not_seen rest _ b hb (heq ▸ List.mem_cons_self _ _)

/-!
## Claim theorems
-/

/-- C1 (amended): `_parse_rss_feed` is total for its caller: for every
parse oracle and every input it either returns the successfully processed
entry items, or it returns `[]` — in particular a raised fetch, a
malformed/empty feed, and an exception on any single entry all yield
`[]`.  (The claim's last conjunct fails: one malformed entry empties the
whole batch, see the counterexample.) -/
theorem parseRssFeed_total_behavior (parse : Str → Option FeedResult)
    (sh : Str → Str) (pd : Str → Option ℚ) (now : ℚ) (nowIso feedUrl : Str)
    (limit : ℕ) :
    parseRssFeed parse sh pd now nowIso feedUrl limit = [] ∨
    ∃ fr, parse feedUrl = some fr ∧ fr.entries ≠ [] ∧
      processEntries sh pd now nowIso feedUrl fr.feedTitle (fr.entries.take limit) =
        .ok (parseRssFeed parse sh pd now nowIso feedUrl limit) := by
  cases hp : parse feedUrl with
  | none => exact Or.inl (by simp [parseRssFeed, hp])
  | some fr =>
    by_cases he : fr.entries.isEmpty
    · exact Or.inl (by simp [parseRssFeed, hp, he])
    · cases hpe : processEntries sh pd now nowIso feedUrl fr.feedTitle
          (fr.entries.take limit) with
      | error u => exact Or.inl (by simp [parseRssFeed, hp, he, hpe])
      | ok items =>
        refine Or.inr ⟨fr, rfl, by simpa [List.isEmpty_iff] using he, ?_⟩
        rw [hpe]
        have : parseRssFeed parse sh pd now nowIso feedUrl limit = items := by
          simp [parseRssFeed, hp, he, hpe]
        rw [this]

/-- C1 (counterexample): a feed with one well-formed entry and one entry
lacking a title: the good entry alone processes fine, yet the feed's
whole batch comes back empty — the malformed entry aborted the batch. -/
theorem parseRssFeed_single_bad_entry_aborts_batch :
    parseRssFeed parseGoodBad id pdNone 0 nowIsoFix (str "http://feeds.example/rss") 10 = [] ∧
    (processEntry id pdNone 0 nowIsoFix (str "http://feeds.example/rss")
        (some (str "Example Feed")) entryGood).toOption.isSome = true := by
  exact ⟨by decide, by decide⟩

/-- C4 (amended): an entry with no publish date always gets a timestamp;
it equals the collection time unless the entry carries an `updated` date
that the date parser accepts, in which case it is that parsed time
(possibly in the future).  The timestamp stored on the produced item is
exactly this derived timestamp. -/
theorem derivedTimestamp_missing_publish_date (pd : Str → Option ℚ) (now : ℚ)
    (nowIso : Str) (e : Entry) (hpub : e.published.getD [] = [])
    (hnow : pd nowIso = some now) :
    (derivedTimestamp pd now nowIso e = now ∨
      ∃ u, e.updated = some u ∧ pd u = some (derivedTimestamp pd now nowIso e)) ∧
    ∀ (sh : Str → Str) (fu : Str) (ft : Option Str) (it : Item),
      processEntry sh pd now nowIso fu ft e = .ok it →
      it.published_timestamp = derivedTimestamp pd now nowIso e := by
  constructor
  · unfold derivedTimestamp parseDateToTimestamp selectPublished
    rw [hpub]
    cases hu : e.updated with
    | none => exact Or.inl (by simp [hnow])
    | some u =>
      cases hpu : pd u with
      | none => exact Or.inl (by simp [hpu])
      | some t => exact Or.inr ⟨u, rfl, by simp [hpu]⟩
  · intro sh fu ft it h
    unfold processEntry at h
    cases ht : e.title with
    | none => rw [ht] at h; cases h
    | some t => rw [ht] at h; cases h; rfl

/-- C4 (witness): instantiating the amended theorem at an entry with
neither a publish nor an updated date. -/
theorem derivedTimestamp_missing_publish_date_witness :
    derivedTimestamp (fun s => if s = nowIsoFix then some 5 else none) 5 nowIsoFix entryBad = 5 ∨
      ∃ u, entryBad.updated = some u ∧
        (fun s => if s = nowIsoFix then some 5 else none) u =
          some (derivedTimestamp (fun s => if s = nowIsoFix then some 5 else none) 5
            nowIsoFix entryBad) :=
  (derivedTimestamp_missing_publish_date
    (fun s => if s = nowIsoFix then some 5 else none) 5 nowIsoFix entryBad
    (by decide) (by simp)).1

/-- C4 (counterexample): an entry with no publish date but a future
`updated` date gets a timestamp strictly greater than "now" (= 0 here),
refuting "always ≤ now". -/
theorem derivedTimestamp_future_updated_exceeds_now :
    entryFutureUpdated.published.getD [] = [] ∧
    derivedTimestamp pdFuture 0 nowIsoFix entryFutureUpdated = 100 ∧
    ¬ (derivedTimestamp pdFuture 0 nowIsoFix entryFutureUpdated ≤ 0) ∧
    (processEntry id pdFuture 0 nowIsoFix (str "http://f") none
        entryFutureUpdated).toOption.map (fun it => it.published_timestamp) = some 100 := by
  refine ⟨by decide, by decide, by decide, by decide⟩

/-- C5: `_remove_duplicates` collapses items whose titles share their
first five words (order-independent, case-insensitive): every input item
has a representative with permutation-equal first-five words in the
output, and no two retained items have permutation-equal first-five
words. -/
theorem removeDuplicates_collapses_same_first5 (items : List Item) :
    (∀ i ∈ items, ∃ u ∈ removeDuplicates items,
      List.Perm (first5Words u.title) (first5Words i.title)) ∧
    List.Pairwise
      (fun a b => ¬ List.Perm (first5Words a.title) (first5Words b.title))
      (removeDuplicates items) := by
  constructor
  · intro i hi
    rcases removeDuplicatesAux_covers items [] i hi with hseen | ⟨u, hu, hk⟩
    · simp at hseen
    · exact ⟨u, hu, first5_perm_of_simplifiedTitle_eq hk⟩
  · refine (removeDuplicatesAux_pairwise items []).imp ?_
    intro a b hne hperm
    exact hne (simplifiedTitle_eq_of_perm hperm)

/-- C5 (witness): two titles sharing their first words up to order and
case collapse to one retained item. -/
theorem removeDuplicates_collapses_same_first5_witness :
    ∃ u ∈ removeDuplicates
        [mkItem (str "Alpha beta gamma") 1, mkItem (str "beta ALPHA gamma") 2],
      List.Perm (first5Words u.title)
        (first5Words (mkItem (str "beta ALPHA gamma") 2).title) :=
  (removeDuplicates_collapses_same_first5
    [mkItem (str "Alpha beta gamma") 1, mkItem (str "beta ALPHA gamma") 2]).1
    (mkItem (str "beta ALPHA gamma") 2) (by simp)

/-- C6 (amended): within the SAP scorer, appending a keyword to the
title never decreases `_calculate_sap_score` (with its modern-tech flag
recomputed).  The full pipeline is not monotonic: the appended keyword
can move the job to the AI-transition scorer, which may assign a lower
score (see the counterexample). -/
theorem sapScore_monotone_under_title_keyword (j : Job) (kw : Str) :
    calcSapScore j (hasModernTech j) ≤
      calcSapScore (appendTitle j kw) (hasModernTech (appendTitle j kw)) :=
  calcSapScore_appendTitle_mono j kw

/-- C6 (counterexample): a job scored 7 by the SAP scorer; appending the
high-priority keyword "ai" to its title reclassifies it to the
AI-transition category, where the pipeline assigns score 5 < 7. -/
theorem pipeline_score_decreases_on_ai_keyword :
    (categorizeJobs [jobSapBase]).sap_category.map (fun j => j.relevance_score) = [7] ∧
    (categorizeJobs [jobSapBase]).ai_transition_category = [] ∧
    (categorizeJobs [appendTitle jobSapBase (str "ai")]).ai_transition_category.map
      (fun j => j.relevance_score) = [5] ∧
    (categorizeJobs [appendTitle jobSapBase (str "ai")]).sap_category = [] ∧
    (5 : ℤ) < 7 := by
  refine ⟨by decide, by decide, by decide, by decide, by decide⟩


theorem keepJob_jobZeroScore : keepJob 0 jobZeroScore = true := by
  have hlt : ¬ (0 : ℚ) < 0 - 10 := by norm_num
  simp only [keepJob, jobZeroScore, hlt]
  decide

theorem classifyAi_jobZeroScore : classifyAi jobZeroScore = some jobZeroClassified := by
  decide

theorem getJobs_zeroRun_ai :
    (getJobs (List.replicate 10 jobZeroScore) 0).ai_transition_category =
      List.replicate 10 jobZeroClassified := by
  have hfilter : filterByDateAndPackage 0 (List.replicate 10 jobZeroScore) =
      List.replicate 10 jobZeroScore := by
    simp [filterByDateAndPackage, List.filter_replicate, keepJob_jobZeroScore]
  have hlen : ¬ (List.replicate 10 jobZeroScore).length < 10 := by simp
  have hfm : (List.replicate 10 jobZeroScore).filterMap classifyAi =
      List.replicate 10 jobZeroClassified := by
    decide
  have hsort : sortByScoreDesc (List.replicate 10 jobZeroClassified) =
      List.replicate 10 jobZeroClassified := by
    decide
  simp only [getJobs, if_neg hlen, categorizeJobs, hfilter, hfm, hsort]

/-- C8 (amended): what `get_jobs` actually enforces on every returned
job: the posted date (when parseable) lies within the 10-day window and
the first number of the package string is at least 40.  No minimum
relevance-score threshold exists — the counterexample exhibits a run
returning jobs with relevance score 0. -/
theorem getJobs_output_passed_filters (scraped : List Job) (now : ℚ) (j : Job)
    (hmem : j ∈ (getJobs scraped now).sap_category ∨
      j ∈ (getJobs scraped now).ai_transition_category) :
    (∃ n ns, extractNums j.package = n :: ns ∧ 40 ≤ n) ∧
    (∀ d, j.posted_date = some d → now - 10 ≤ d) := by
  unfold getJobs categorizeJobs at hmem
  rcases hmem with hmem | hmem
  · rw [mem_sortByScoreDesc] at hmem
    obtain ⟨a, ha, hcl⟩ := List.mem_filterMap.mp hmem
    obtain ⟨hpack, hdate⟩ := classifySap_fields hcl
    have hk := (List.mem_filter.mp ha).2
    have hspec := keepJob_spec hk
    rw [hpack, hdate]
    exact hspec
  · rw [mem_sortByScoreDesc] at hmem
    obtain ⟨a, ha, hcl⟩ := List.mem_filterMap.mp hmem
    obtain ⟨hpack, hdate⟩ := classifyAi_fields hcl
    have hk := (List.mem_filter.mp ha).2
    have hspec := keepJob_spec hk
    rw [hpack, hdate]
    exact hspec

/-- C8 (witness): instantiating the filter guarantee at a concrete run
of `get_jobs`. -/
theorem getJobs_output_passed_filters_witness :
    (∃ n ns, extractNums jobZeroClassified.package = n :: ns ∧ 40 ≤ n) ∧
    (∀ d, jobZeroClassified.posted_date = some d → (0 : ℚ) - 10 ≤ d) :=
  getJobs_output_passed_filters (List.replicate 10 jobZeroScore) 0 jobZeroClassified
    (Or.inr (by rw [getJobs_zeroRun_ai]; exact List.mem_replicate.mpr ⟨by decide, rfl⟩))

/-- C8 (counterexample): a run of `get_jobs` whose returned
AI-transition jobs all carry relevance score 0 — no positive minimum
relevance-score threshold is applied before the result is returned. -/
theorem getJobs_returns_zero_score_jobs :
    ((getJobs (List.replicate 10 jobZeroScore) 0).ai_transition_category.map
      (fun j => j.relevance_score)) = List.replicate 10 0 ∧
    (getJobs (List.replicate 10 jobZeroScore) 0).ai_transition_category ≠ [] := by
  rw [getJobs_zeroRun_ai]
  exact ⟨by decide, by decide⟩

/-- C2 (amended): when both scrapes yield nothing, the cap-category
result is exactly the yfinance fallback pass over the configured
fallback symbol list: the retained stocks are the (first `count`)
fallback symbols whose lookup succeeded, with their looked-up (non-zero)
prices; the market overview falls back to the hardcoded non-zero
overview.  If the fallback lookups also all fail the category is empty
— it does not contain the fallback symbols (see the counterexample). -/
theorem getStockData_fallback_path (screener mc : ℕ → List Stock)
    (lookup : Str → Option Stock) (category : Str) (count : ℕ)
    (hs : ∀ n, screener n = []) (hm : ∀ n, mc n = [])
    (hlk : ∀ sym st, lookup sym = some st → st.current_price ≠ 0) :
    getTopStocksByMarketCap screener mc lookup category count =
      yfinanceFallbackStocks lookup category count ∧
    (getTopStocksByMarketCap screener mc lookup category count).map (fun st => st.symbol) =
      ((fallbackSymbols category).take count).filterMap
        (fun sym => (lookup sym).map (fun st => st.symbol)) ∧
    (∀ st ∈ getTopStocksByMarketCap screener mc lookup category count,
      st.current_price ≠ 0) ∧
    fallbackMarketOverview.nifty_50.current_price = 19500 := by
  have hlen : (yfinanceFallbackStocks lookup category count).length ≤ count := by
    refine le_trans (List.length_filterMap_le _ _) ?_
    rw [List.length_take]
    exact min_le_left _ _
  have h1 : getTopStocksByMarketCap screener mc lookup category count =
      yfinanceFallbackStocks lookup category count := by
    rcases Nat.eq_zero_or_pos count with hc | hc
    · subst hc
      simp [getTopStocksByMarketCap, hs, hm, yfinanceFallbackStocks]
    · simp only [getTopStocksByMarketCap, hs, hm]
      rw [if_pos (by simpa using hc), if_pos (by simpa using hc)]
      simp only [List.nil_append, Nat.sub_zero]
      exact List.take_of_length_le hlen
  refine ⟨h1, ?_, ?_, rfl⟩
  · rw [h1]
    unfold yfinanceFallbackStocks
    rw [List.map_filterMap]
    congr 1
    funext sym
    cases lookup sym <;> rfl
  · intro st hst
    rw [h1] at hst
    unfold yfinanceFallbackStocks at hst
    obtain ⟨sym, _, hmap⟩ := List.mem_filterMap.mp hst
    cases hl : lookup sym with
    | none => rw [hl] at hmap; cases hmap
    | some st0 =>
      rw [hl] at hmap
      have hst0 : { st0 with source := str "Yahoo Finance (Fallback)" } = st := by
        simpa using hmap
      have hprice : st.current_price = st0.current_price := by
        rw [← hst0]
      rw [hprice]
      exact hlk sym st0 hl

/-- C2 (witness): with failing scrapes and an everywhere-successful
lookup, the large-cap result is the fallback pass over the configured
symbol list. -/
theorem getStockData_fallback_path_witness :
    getTopStocksByMarketCap (scrapeNone (str "large")) (scrapeNone (str "large"))
        lookupGood (str "large") 6 =
      yfinanceFallbackStocks lookupGood (str "large") 6 :=
  (getStockData_fallback_path (scrapeNone (str "large")) (scrapeNone (str "large"))
    lookupGood (str "large") 6 (fun _ => rfl) (fun _ => rfl)
    (fun sym st h => by cases h; show (100 : ℚ) ≠ 0; decide)).1

/-- C2 (counterexample): when the scrapes fail and the secondary
yfinance lookups also all yield nothing, every cap category of
`get_stock_data` is empty — it does not contain the configured fallback
symbol list, and no stock (with any price) is returned at all. -/
theorem getStockData_all_sources_fail_empty :
    (getStockData none scrapeNone scrapeNone lookupNone).large_cap = [] ∧
    (getStockData none scrapeNone scrapeNone lookupNone).mid_cap = [] ∧
    (getStockData none scrapeNone scrapeNone lookupNone).small_cap = [] ∧
    (fallbackSymbols (str "large")).length = 12 ∧
    (getStockData none scrapeNone scrapeNone lookupNone).market_overview =
      fallbackMarketOverview := by
  refine ⟨by decide, by decide, by decide, by decide, rfl⟩

/-- C3 (amended): when SMTP login fails, `send_email` re-raises the
authentication error to its caller (it never returns `False`); the
caller `generate_report` catches it, attempts exactly one
error-notification send for the run, and re-raises. -/
theorem smtp_login_failure_behavior (cfg : EmailConfig) (env : SmtpEnv)
    (hcfg : validateConfiguration cfg = []) (hc : env.connect = none)
    (ht : env.starttls = none) (hl : env.login = some .auth) :
    sendEmail cfg env = .error .auth ∧
    generateReport cfg env false = { raised := true, notifAttempts := 1 } := by
  have hfrom : cfg.email_from.isEmpty = false := by
    cases hf : cfg.email_from.isEmpty
    · rfl
    · unfold validateConfiguration at hcfg
      rw [hf] at hcfg
      simp at hcfg
  have hpass : cfg.email_password.isEmpty = false := by
    cases hf : cfg.email_password.isEmpty
    · rfl
    · unfold validateConfiguration at hcfg
      rw [hf] at hcfg
      simp at hcfg
  have hto : cfg.email_to.isEmpty = false := by
    cases hf : cfg.email_to.isEmpty
    · rfl
    · unfold validateConfiguration at hcfg
      rw [hf] at hcfg
      simp at hcfg
  have hsend : sendEmail cfg env = .error .auth := by
    unfold sendEmail
    rw [hfrom, hpass, hto, hc, ht, hl]
    rfl
  refine ⟨hsend, ?_⟩
  unfold generateReport
  rw [hcfg, hsend]
  rfl

/-- C3 (witness): the login-failure behavior at a concrete valid
configuration and failing login. -/
theorem smtp_login_failure_behavior_witness :
    sendEmail cfgGood envAuthFail = .error .auth ∧
    generateReport cfgGood envAuthFail false = { raised := true, notifAttempts := 1 } :=
  smtp_login_failure_behavior cfgGood envAuthFail (by decide) rfl rfl rfl

/-- C3 (counterexample): on SMTP login failure the delivery operation
does not return a boolean failure value — it raises: its result is an
error, not `.ok false` (nor `.ok true`). -/
theorem sendEmail_raises_not_returns :
    sendEmail cfgGood envAuthFail = .error .auth ∧
    sendEmail cfgGood envAuthFail ≠ .ok false ∧
    sendEmail cfgGood envAuthFail ≠ .ok true := by
  have h : sendEmail cfgGood envAuthFail = .error .auth := rfl
  refine ⟨h, ?_, ?_⟩ <;> rw [h] <;> intro hx <;> cases hx

/-- C9 (amended): `_parse_rss_feed` performs no URL-scheme validation:
for every URL — well-formed or not — the result is fully determined by
what the unconditional `feedparser.parse` fetch call returns for that
URL. -/
theorem parseRssFeed_no_scheme_validation (parse : Str → Option FeedResult)
    (sh : Str → Str) (pd : Str → Option ℚ) (now : ℚ) (nowIso feedUrl : Str)
    (limit : ℕ) :
    parseRssFeed parse sh pd now nowIso feedUrl limit =
      processFeedResult sh pd now nowIso feedUrl limit (parse feedUrl) := rfl

/-- C9 (counterexample): two fetch oracles that differ only at an
invalid-scheme URL give `_parse_rss_feed` different results at that URL:
the URL was fetched, hence no scheme validation prevented the fetch. -/
theorem invalid_scheme_url_still_fetched :
    parseRssFeed parseOracleA id pdNone 0 nowIsoFix badSchemeUrl 5 ≠
      parseRssFeed parseOracleB id pdNone 0 nowIsoFix badSchemeUrl 5 ∧
    parseOracleB badSchemeUrl = none ∧
    (parseRssFeed parseOracleA id pdNone 0 nowIsoFix badSchemeUrl 5).length = 1 := by
  refine ⟨by decide, rfl, by decide⟩

/-- C10: the 24-hour recency filter is inclusive at the boundary: an
item whose timestamp equals exactly `now - 24h` is retained, and an item
strictly older is excluded. -/
theorem recencyFilter_boundary_inclusive (now : ℚ) (items : List Item) (i : Item)
    (hmem : i ∈ items) :
    (i.published_timestamp = now - 24 * 3600 → i ∈ filterLast24Hours now items) ∧
    (i.published_timestamp < now - 24 * 3600 → i ∉ filterLast24Hours now items) := by
  constructor
  · intro h
    unfold filterLast24Hours
    rw [List.mem_filter]
    exact ⟨hmem, by rw [h]; simp⟩
  · intro h hin
    unfold filterLast24Hours at hin
    have h2 := of_decide_eq_true (List.mem_filter.mp hin).2
    linarith

/-- C10 (witness): a boundary item is retained by the filter. -/
theorem recencyFilter_boundary_inclusive_witness :
    mkItem (str "edge") ((0 : ℚ) - 24 * 3600) ∈
      filterLast24Hours 0 [mkItem (str "edge") ((0 : ℚ) - 24 * 3600)] :=
  (recencyFilter_boundary_inclusive 0 [mkItem (str "edge") ((0 : ℚ) - 24 * 3600)]
    (mkItem (str "edge") ((0 : ℚ) - 24 * 3600)) (by simp)).1 rfl

theorem momentumScore_bounds (h : Hist) : 2 ≤ momentumScore h ∧ momentumScore h ≤ 9 := by
  simp only [momentumScore]
  refine ⟨?_, ?_⟩ <;> split_ifs <;> norm_num

theorem volumeScore_bounds (h : Hist) : 3 ≤ volumeScore h ∧ volumeScore h ≤ 9 := by
  simp only [volumeScore]
  refine ⟨?_, ?_⟩ <;> split_ifs <;> norm_num

theorem volatilityScore_bounds (h : Hist) : 2 ≤ volatilityScore h ∧ volatilityScore h ≤ 9 := by
  simp only [volatilityScore]
  refine ⟨?_, ?_⟩ <;> split_ifs <;> norm_num

/-- C7 (amended): each sub-score indeed lies in [0, 10] (in fact in
[2, 9]); but the overall score of `_get_enhanced_stock_info` is the
weighted blend plus a base of 5 and ranges over [7.1, 13.1] — it is not
confined to [0, 10] (see the counterexample for a value of 13.1). -/
theorem stockScores_ranges (h : Hist) :
    (0 ≤ momentumScore h ∧ momentumScore h ≤ 10) ∧
    (0 ≤ volumeScore h ∧ volumeScore h ≤ 10) ∧
    (0 ≤ volatilityScore h ∧ volatilityScore h ≤ 10) ∧
    ((71 : ℚ)/10 ≤ overallScore h ∧ overallScore h ≤ (131 : ℚ)/10) := by
  obtain ⟨hm1, hm2⟩ := momentumScore_bounds h
  obtain ⟨hv1, hv2⟩ := volumeScore_bounds h
  obtain ⟨ho1, ho2⟩ := volatilityScore_bounds h
  refine ⟨⟨by linarith, by linarith⟩, ⟨by linarith, by linarith⟩,
    ⟨by linarith, by linarith⟩, ?_, ?_⟩ <;> (unfold overallScore; linarith)

/-- C7 (counterexample): a five-day history on which all three
sub-scores hit their top branch: the overall score is 13.1, outside
[0, 10]. -/
theorem overallScore_exceeds_ten :
    overallScore histAllNine = (131 : ℚ)/10 ∧ ¬ (overallScore histAllNine ≤ 10) := by
  have hmom : momentumScore histAllNine = 9 := by
    simp only [momentumScore, histAllNine, negIdx]
    norm_num
  have hvol : volumeScore histAllNine = 9 := by
    simp only [volumeScore, histAllNine, negIdx, listMean]
    norm_num
  have hvty : volatilityScore histAllNine = 9 := by
    simp only [volatilityScore, histAllNine, sampleVar, pctChanges, pctChangesAux, listMean]
    norm_num
  unfold overallScore
  rw [hmom, hvol, hvty]
  norm_num

/-- C1 (witness): the containment theorem at a concrete failing fetch. -/
theorem parseRssFeed_total_behavior_witness :
    parseRssFeed parseOracleB id pdNone 0 nowIsoFix (str "http://x") 3 = [] ∨
    ∃ fr, parseOracleB (str "http://x") = some fr ∧ fr.entries ≠ [] ∧
      processEntries id pdNone 0 nowIsoFix (str "http://x") fr.feedTitle
          (fr.entries.take 3) =
        .ok (parseRssFeed parseOracleB id pdNone 0 nowIsoFix (str "http://x") 3) :=
  parseRssFeed_total_behavior parseOracleB id pdNone 0 nowIsoFix (str "http://x") 3

/-- C6 (witness): monotonicity of the SAP scorer at a concrete job and
keyword. -/
theorem sapScore_monotone_witness :
    calcSapScore jobSapBase (hasModernTech jobSapBase) ≤
      calcSapScore (appendTitle jobSapBase (str "cloud"))
        (hasModernTech (appendTitle jobSapBase (str "cloud"))) :=
  sapScore_monotone_under_title_keyword jobSapBase (str "cloud")

/-- C7 (witness): the range facts at a concrete history. -/
theorem stockScores_ranges_witness :
    (0 ≤ momentumScore histAllNine ∧ momentumScore histAllNine ≤ 10) ∧
    (0 ≤ volumeScore histAllNine ∧ volumeScore histAllNine ≤ 10) ∧
    (0 ≤ volatilityScore histAllNine ∧ volatilityScore histAllNine ≤ 10) ∧
    ((71 : ℚ)/10 ≤ overallScore histAllNine ∧ overallScore histAllNine ≤ (131 : ℚ)/10) :=
  stockScores_ranges histAllNine

/-- C9 (witness): the factorization through the fetch result at the
invalid-scheme URL. -/
theorem parseRssFeed_no_scheme_validation_witness :
    parseRssFeed parseOracleA id pdNone 0 nowIsoFix badSchemeUrl 5 =
      processFeedResult id pdNone 0 nowIsoFix badSchemeUrl 5 (parseOracleA badSchemeUrl) :=
  parseRssFeed_no_scheme_validation parseOracleA id pdNone 0 nowIsoFix badSchemeUrl 5
